import Mathlib

/-!
Verification of the trialsynth entity-grounding engine and pipeline
orchestrator (src/trialsynth/base/{ground.py, process.py, models.py})
against its natural-language specification.

Shallow embedding conventions:
* Python `str` fields that may be `None` are `Option String`; Python
  truthiness of such a field (`if entity.ns:`) is the `truthy` test below,
  under which both `None` and `""` are falsy.
* Python subclassing of `BioEntity` into `Condition` / `Intervention` is a
  closed `Variant` tag (there are exactly these two concrete variants);
  `type(entity)` dispatch becomes dispatch on the tag.
* External collaborators (the gilda oracle `grounder_func`, the annotator,
  `indra.databases.mesh_client.get_mesh_name` / `has_tree_prefix`) are
  function-valued fields of the `Grounder` structure: their internal
  matching algorithms are out of scope, only the calls the engine makes to
  them are modelled.
* `Grounder.ground` is a Python generator function.  Its drained semantics
  is the function `Grounder.ground` below, which also counts the external
  calls the body performs (`oracleCalls`, `annotatorCalls`, `meshLookups`)
  and records the final state of the caller's entity object (`inputAfter`) —
  the MESH fast path mutates the argument in place, so this is observable.
  An *undrained* generator (created but never iterated) executes none of
  its body; `GroundGen` below models that distinction.
-/

/-- Python truthiness of an optional string: `None` and `""` are falsy. -/

def truthy : Option String → Bool
  | none => false
  | some s => !(s == "")

/-- The two concrete `BioEntity` subclasses in models.py (a closed set). -/

inductive Variant where
  | condition
  | intervention
deriving Repr, DecidableEq, Fintype

/-- models.py `BioEntity` (a `Node` with text/description/origin/grounded_term).
`variant` is the concrete subclass tag (`Condition` / `Intervention`). -/

structure BioEntity where
  variant : Variant
  ns : Option String
  ns_id : Option String
  labels : List String
  source : Option String
  text : String
  description : Option String
  origin : String
  grounded_term : Option String
deriving Repr, DecidableEq

/-- The `term` carried by a gilda `ScoredMatch`: primary authority
(db, id) and display name (`entry_name`). -/

structure MatchTerm where
  db : String
  id : String
  entry_name : String
deriving Repr, DecidableEq

/-- A gilda `ScoredMatch`: its term plus `get_groundings()`, the
namespace→identifier pairs of all groundings it participates in. -/

structure ScoredMatch where
  term : MatchTerm
  groundings : List (String × String)
deriving Repr, DecidableEq

/-- A gilda `Annotation`: a matched span of the input text plus the ranked
candidate matches for that span. -/

structure AnnSpan where
  text : String
  matchList : List ScoredMatch
  start_char : Nat
  end_char : Nat
deriving Repr, DecidableEq

/-- Python `dict(pairs).get(k)`: later pairs overwrite earlier ones, so the
lookup returns the value of the *last* pair with key `k`. -/

def dictGet (pairs : List (String × String)) (k : String) : Option String :=
  (pairs.filter (fun p => p.1 == k)).getLast?.map (fun p => p.2)

/-- ground.py `Grounder`.  Fields renamed only where the original name is
unavailable here: `meshToken` is `mesh_prefix`, `restrictMesh` is
`restrict_mesh_prefix` (Python `None` and `[]` are both falsy, so a plain
list with `[]` for "no restriction" is faithful), `hasTreePfx` is
`mesh_client.has_tree_prefix`, `getMeshName` is
`mesh_client.get_mesh_name(·, offline=True)`.  `grounder_func` takes
(text, namespaces, context).  `preprocess` is the pre-resolution hook;
modelled from the spec: `trialsynth/base/util.py` (the `must_override`
decorator) and the registry-specific grounder subclasses are not under
src/, and the spec states the hook is a no-op by default that variant
grounders may override, so it is a function field (identity = no-op). -/

structure Grounder where
  namespaces : Option (List String)
  restrictMesh : List String
  meshToken : String
  hasTreePfx : String → String → Bool
  getMeshName : String → Option String
  grounder_func : String → Option (List String) → Option String → List ScoredMatch
  annotator : String → Option String → List AnnSpan
  preprocess : BioEntity → BioEntity

/-- ground.py `Grounder._create_grounded_entity`: deep-copy the entity and
set its namespace, identifier and grounded term. -/

def Grounder.createGroundedEntity (entity : BioEntity) (db_ns db_id norm_text : String) :
    BioEntity :=
  { entity with ns := some db_ns, ns_id := some db_id, grounded_term := some norm_text }

/-- ground.py `Grounder._yield_entity`: the match-yield procedure, as the
list of entities the generator yields for one `ScoredMatch`.  Note the two
separate `if` statements on `restrict_mesh_prefix` from the source are kept
as two appended conditional emissions. -/

def Grounder.yieldEntity (g : Grounder) (entity : BioEntity) (m : ScoredMatch) :
    List BioEntity :=
  let mesh_id := dictGet m.groundings g.meshToken
  if truthy mesh_id then
    let mid := mesh_id.getD ""
    (if !g.restrictMesh.isEmpty && g.restrictMesh.any (fun p => g.hasTreePfx mid p) then
      [Grounder.createGroundedEntity entity g.meshToken mid m.term.entry_name]
    else []) ++
    (if g.restrictMesh.isEmpty then
      [Grounder.createGroundedEntity entity g.meshToken mid m.term.entry_name]
    else [])
  else
    [Grounder.createGroundedEntity entity m.term.db m.term.id m.term.entry_name]

/-- The observable outcome of fully draining one `Grounder.ground` generator:
the yielded entities, the final state of the caller's entity object
(`ground` mutates it in the MESH-name-found branch), and how many times the
body called the oracle, the annotator, and the offline MESH name table. -/

structure GroundResult where
  yielded : List BioEntity
  inputAfter : BioEntity
  oracleCalls : Nat
  annotatorCalls : Nat
  meshLookups : Nat
deriving Repr, DecidableEq

/-- One annotator fallback pass (the `for annotation in annotations` loops of
ground.py lines 238-239 and 245-246): each annotation's top-ranked match is
resolved through match-yield.  (On an annotation with an empty match list
Python would raise `IndexError` at `annotation.matches[0]`; no annotator
produces such annotations and no claim reaches that case.) -/

def Grounder.annotYield (g : Grounder) (entity : BioEntity) (anns : List AnnSpan) :
    List BioEntity :=
  anns.flatMap (fun a =>
    match a.matchList with
    | [] => []
    | m :: _ => Grounder.yieldEntity g entity m)

/-- ground.py `Grounder.ground` (drained semantics).  Branches, in source
order: MESH fast path (offline name found / oracle fallback restricted to
the MESH namespace), already-grounded passthrough, general resolution
(oracle, then annotator over the text, then annotator over the description
when one is present). -/

def Grounder.ground (g : Grounder) (e0 : BioEntity) (context : Option String) :
    GroundResult :=
  let entity := g.preprocess e0
  if truthy entity.ns && (entity.ns.getD "" == g.meshToken) && truthy entity.ns_id then
    match g.getMeshName (entity.ns_id.getD "") with
    | some mesh_name =>
      let e' := { entity with grounded_term := some mesh_name }
      ⟨[e'], e', 0, 0, 1⟩
    | none =>
      match g.grounder_func entity.text (some [g.meshToken]) none with
      | [] => ⟨[], entity, 1, 0, 1⟩
      | m :: _ => ⟨Grounder.yieldEntity g entity m, entity, 1, 0, 1⟩
  else if truthy entity.ns && truthy entity.ns_id then
    ⟨[entity], entity, 0, 0, 0⟩
  else
    match g.grounder_func entity.text g.namespaces context with
    | m :: _ => ⟨Grounder.yieldEntity g entity m, entity, 1, 0, 0⟩
    | [] =>
      let fromText := Grounder.annotYield g entity (g.annotator entity.text context)
      if truthy entity.description then
        let fromDesc :=
          Grounder.annotYield g entity (g.annotator (entity.description.getD "") context)
        ⟨fromText ++ fromDesc, entity, 1, 2, 0⟩
      else
        ⟨fromText, entity, 1, 1, 0⟩

/-! ### Concrete instances used by counterexamples and witnesses -/


/-- A concrete grounder: MESH token `"MESH"`, no tree restriction, offline
table resolving `D000001` to `Calcimycin`, oracle and annotator returning
nothing, no-op preprocess. -/

def gPlain : Grounder :=
  { namespaces := none
    restrictMesh := []
    meshToken := "MESH"
    hasTreePfx := fun _ _ => false
    getMeshName := fun i => if i == "D000001" then some "Calcimycin" else none
    grounder_func := fun _ _ _ => []
    annotator := fun _ _ => []
    preprocess := id }

/-- A concrete condition entity already carrying MESH grounding. -/

def eMesh : BioEntity :=
  { variant := Variant.condition
    ns := some "MESH"
    ns_id := some "D000001"
    labels := ["condition"]
    source := some "reg"
    text := "calcimycin"
    description := none
    origin := "reg:T1"
    grounded_term := none }

/-- A concrete condition entity grounded to a non-MESH authority. -/

def eOther : BioEntity :=
  { variant := Variant.condition
    ns := some "doid"
    ns_id := some "0001"
    labels := ["condition"]
    source := some "reg"
    text := "something"
    description := none
    origin := "reg:T1"
    grounded_term := none }

/-- A restricted grounder (MESH tree prefixes C and F, as the condition
grounder configures) whose tree oracle places exactly the identifier
`D0777` under prefix C. -/

def gRestrict : Grounder :=
  { gPlain with
      restrictMesh := ["C", "F"]
      hasTreePfx := fun mid p => p == "C" && mid == "D0777" }

/-- A candidate carrying a MESH grounding `D0777` (inside prefix C under
`gRestrict`'s tree oracle). -/

def mInside : ScoredMatch :=
  ⟨⟨"mesh", "D0777", "Headache"⟩, [("MESH", "D0777")]⟩

/-- A candidate carrying a MESH grounding `D999` (outside every configured
prefix under `gRestrict`'s tree oracle). -/

def mOutside : ScoredMatch :=
  ⟨⟨"mesh", "D999", "Laser"⟩, [("MESH", "D999")]⟩

/-! ### Pipeline orchestrator model (process.py) -/


/-- models.py `Trial` (the fields the Ground phase reads, plus its mutable
entity bag).  A Python `None` title cannot occur on fetched trials; unset
namespace parts are `""` (falsy, like `None`). -/

structure Trial where
  ns : String
  ns_id : String
  title : String
  brief_summary : Option String
  detailed_description : Option String
  entities : List BioEntity
deriving Repr, DecidableEq

/-- Python `str.lower()`, modelled character by character (all namespaces in
this domain are ASCII, where the two agree). -/
def strLower (s : String) : String :=
  String.mk (s.data.map Char.toLower)

/-- models.py `Node.curie` for a trial: empty namespace or identifier gives
`""` (logged, non-fatal); otherwise lower-cased namespace, colon,
identifier (`bioregistry.curie_to_str`). -/

def Trial.curie (t : Trial) : String :=
  if t.ns == "" || t.ns_id == "" then "" else strLower t.ns ++ ":" ++ t.ns_id

/-- Python `dict[k] = v` on an association list: overwrite in place if the
key is present, else append (insertion order preserved). -/

def dictSet (idx : List (String × Trial)) (k : String) (t : Trial) :
    List (String × Trial) :=
  if idx.any (fun p => p.1 == k) then
    idx.map (fun p => if p.1 == k then (p.1, t) else p)
  else idx ++ [(k, t)]

/-- Python `dict[k]` lookup (keys are unique by construction). -/

def lookupIdx (idx : List (String × Trial)) (k : String) : Option Trial :=
  (idx.find? (fun p => p.1 == k)).map (fun p => p.2)

/-- `self.entities[type(entity)].append(entity)` with on-demand bucket
creation: buckets are keyed by the entity's concrete class in
first-encounter order. -/

def bucketAdd (bs : List (Variant × List BioEntity)) (v : Variant) (e : BioEntity) :
    List (Variant × List BioEntity) :=
  if bs.any (fun b => b.1 == v) then
    bs.map (fun b => if b.1 == v then (b.1, b.2 ++ [e]) else b)
  else bs ++ [(v, [e])]

/-- process.py `Processor.get_bioentities`: index every trial by its CURIE,
pool its entities into per-variant buckets, and clear the trial's entity
bag (the index holds the same object, so it sees the cleared bag). -/

def getBioentities (trials : List Trial) :
    List (String × Trial) × List (Variant × List BioEntity) :=
  trials.foldl
    (fun acc trial =>
      (dictSet acc.1 (Trial.curie trial) { trial with entities := [] },
       trial.entities.foldl (fun bs e => bucketAdd bs e.variant e) acc.2))
    ([], [])

/-- process.py lines 198-202: the grounding context is the origin trial's
title, then its brief summary if truthy, then its detailed description if
truthy, newline-separated. -/

def trialContext (t : Trial) : String :=
  let c := t.title
  let c := if truthy t.brief_summary then c ++ "\n" ++ t.brief_summary.getD "" else c
  if truthy t.detailed_description then c ++ "\n" ++ t.detailed_description.getD "" else c

/-- `trial.entities.extend(entities)` on the trial stored under key `k`. -/

def extendTrialEntities (idx : List (String × Trial)) (k : String)
    (es : List BioEntity) : List (String × Trial) :=
  idx.map (fun p =>
    if p.1 == k then (p.1, { p.2 with entities := p.2.entities ++ es }) else p)

/-- A generator object returned by calling the generator function
`Grounder.ground` (Python runs none of the body at call time).  `drained`
is `none` for a generator that was discarded without being iterated — no
body code ever ran — and `some r` for one the caller fully drained,
performing the run `r`. -/

structure GroundGen where
  drained : Option GroundResult
deriving Repr, DecidableEq

/-- External calls (oracle + annotator + offline MESH table) a generator
actually performed: zero when it was never iterated. -/

def GroundGen.executedCalls : GroundGen → Nat
  | ⟨none⟩ => 0
  | ⟨some r⟩ => r.oracleCalls + r.annotatorCalls + r.meshLookups

/-- One iteration of the per-entity loop of
`Processor.process_bioentities`: look the origin trial up
(`self.curie_to_trial[entity.origin]`, a `KeyError` when absent — modelled
as `Except.error` carrying the offending CURIE), build the context, drain
the grounder generator, and extend the origin trial's entity bag with the
yielded entities.  The second accumulator component counts external calls
executed so far. -/

def groundStep (g : Grounder) (acc : List (String × Trial) × Nat) (e : BioEntity) :
    Except String (List (String × Trial) × Nat) :=
  match lookupIdx acc.1 e.origin with
  | none => Except.error e.origin
  | some trial =>
    let run := Grounder.ground g e (some (trialContext trial))
    Except.ok (extendTrialEntities acc.1 e.origin run.yielded,
      acc.2 + (run.oracleCalls + run.annotatorCalls + run.meshLookups))

deriving instance DecidableEq for Except

/-- The outcome of `Processor.process_bioentities`: the external calls the
two warm-up lines actually executed, and (unless a missing origin aborted
the run) the updated trial index plus the calls executed by the per-entity
loop. -/

structure ProcessOutcome where
  warmupExecuted : Nat
  result : Except String (List (String × Trial) × Nat)
deriving Repr, DecidableEq

/-- process.py `Processor.process_bioentities`: lines 182-183 call
`ground("stuff")` on each grounder and discard the returned generators
without iterating them (`GroundGen.drained = none`), then each bucket is
zipped positionally against `[condition_grounder, intervention_grounder]`
and every entity of the bucket is processed with the grounder the zip
paired it with. -/

def processBioentities (cond_grounder intervention_grounder : Grounder)
    (idx : List (String × Trial)) (buckets : List (Variant × List BioEntity)) :
    ProcessOutcome :=
  let warmupGens : List GroundGen := [⟨none⟩, ⟨none⟩]
  let pairs := buckets.zip [cond_grounder, intervention_grounder]
  ⟨(warmupGens.map GroundGen.executedCalls).sum,
   pairs.foldlM (fun acc pr => pr.1.2.foldlM (fun a e => groundStep pr.2 a e) acc)
     (idx, 0)⟩

/-! ### Concrete pipeline fixtures for C5 and C6 -/


/-- An ungrounded intervention mention attached to trial `reg:T1`. -/

def iEnt : BioEntity :=
  { variant := Variant.intervention
    ns := none
    ns_id := none
    labels := ["intervention"]
    source := some "reg"
    text := "drugX"
    description := none
    origin := "reg:T1"
    grounded_term := none }

/-- An ungrounded condition mention attached to trial `reg:T1`. -/

def cEnt : BioEntity :=
  { variant := Variant.condition
    ns := none
    ns_id := none
    labels := ["condition"]
    source := some "reg"
    text := "disY"
    description := none
    origin := "reg:T1"
    grounded_term := none }

/-- A trial whose entity bag lists its intervention mention *before* its
condition mention. -/

def tSwap : Trial :=
  { ns := "reg"
    ns_id := "T1"
    title := "Study"
    brief_summary := none
    detailed_description := none
    entities := [iEnt, cEnt] }

/-- A condition grounder whose oracle grounds everything to the authority
`CONDDB` (so its output is recognizable). -/

def cgSwap : Grounder :=
  { gPlain with
      getMeshName := fun _ => none
      grounder_func := fun _ _ _ => [⟨⟨"CONDDB", "c1", "condName"⟩, []⟩] }

/-- An intervention grounder whose oracle grounds everything to the
authority `INTDB`. -/

def igSwap : Grounder :=
  { gPlain with
      getMeshName := fun _ => none
      grounder_func := fun _ _ _ => [⟨⟨"INTDB", "i1", "intName"⟩, []⟩] }

/-- A condition mention whose origin CURIE matches no trial. -/
def badEnt : BioEntity :=
  { cEnt with origin := "reg:MISSING" }

/-- A trial (CURIE `reg:T1`) carrying only the dangling-origin mention. -/
def tBad : Trial :=
  { ns := "reg"
    ns_id := "T1"
    title := "Study"
    brief_summary := none
    detailed_description := none
    entities := [badEnt] }

/-! ### Serialization of entity rows (process.py `save_bioentities`) -/

/-- models.py `Node.curie` for a `BioEntity`: `""` when namespace or
identifier is falsy, else lower-cased namespace, colon, identifier. -/
def BioEntity.curie (e : BioEntity) : String :=
  if !truthy e.ns || !truthy e.ns_id then ""
  else strLower (e.ns.getD "") ++ ":" ++ e.ns_id.getD ""

/-- Modelled from the spec: the flattened entity row produced by
`Transformer.flatten_bioentity` (trialsynth/base/transform.py is not under
src/).  "Entity rows carry CURIE, canonical term, labels, source registry,
origin trial CURIE" — the CURIE is the first column and the origin trial
CURIE the last, matching the sort key `(x[0], x[-1])` used in
`Processor.save_bioentities`. -/
structure EntityRow where
  curie : String
  term : String
  labels : List String
  source : String
  trial : String
deriving Repr, DecidableEq

/-- Modelled from the spec: flattening one entity into its row (CURIE,
canonical term, labels, source registry, origin trial CURIE). -/
def flattenBioentity (e : BioEntity) : EntityRow :=
  ⟨BioEntity.curie e, e.grounded_term.getD "", e.labels, e.source.getD "", e.origin⟩

/-- The sort key of `Processor.save_bioentities`: Python
`sorted(..., key=lambda x: (x[0], x[-1]))`, i.e. lexicographically by
(entity CURIE, origin trial CURIE). -/
def rowKeyLe (a b : EntityRow) : Prop :=
  a.curie < b.curie ∨ (a.curie = b.curie ∧ a.trial ≤ b.trial)

instance : DecidableRel rowKeyLe := fun a b => by
  unfold rowKeyLe
  infer_instance

instance : IsTotal EntityRow rowKeyLe where
  total a b := by
    unfold rowKeyLe
    rcases lt_trichotomy a.curie b.curie with h | h | h
    · exact Or.inl (Or.inl h)
    · rcases le_total a.trial b.trial with ht | ht
      · exact Or.inl (Or.inr ⟨h, ht⟩)
      · exact Or.inr (Or.inr ⟨h.symm, ht⟩)
    · exact Or.inr (Or.inl h)

instance : IsTrans EntityRow rowKeyLe where
  trans a b c hab hbc := by
    unfold rowKeyLe at hab hbc ⊢
    rcases hab with hab | ⟨hab, hab'⟩
    · rcases hbc with hbc | ⟨hbc, _⟩
      · exact Or.inl (hab.trans hbc)
      · exact Or.inl (hbc ▸ hab)
    · rcases hbc with hbc | ⟨hbc, hbc'⟩
      · exact Or.inl (hab ▸ hbc)
      · exact Or.inr ⟨hab.trans hbc, hab'.trans hbc'⟩

/-- process.py `Processor.save_bioentities` (row construction only; the
flat-file store is an external collaborator): flatten every entity on every
trial, deduplicate as a set (Python `set`, whose arbitrary iteration order
is modelled by `List.dedup`), and sort by (entity CURIE, origin trial
CURIE). -/
def saveBioentityRows (trials : List Trial) : List EntityRow :=
  List.insertionSort rowKeyLe
    (((trials.flatMap (fun t => t.entities)).map flattenBioentity).dedup)

/-! ### models.py `Node.curie` property (strings as character lists) -/

/-- Python `s.split(":")` over a string modelled as its character list:
splits at *every* colon. -/
def pySplitColon : List Char → List (List Char)
  | [] => [[]]
  | c :: cs =>
    if c = ':' then [] :: pySplitColon cs
    else
      match pySplitColon cs with
      | [] => [[c]]
      | r :: rs => (c :: r) :: rs

/-- models.py `Node.curie` setter:
`self.ns, self.ns_id = curie.split(":")` — the split is unpacked into
exactly two variables, so any colon count other than one raises
`ValueError` (modelled as `Except.error ()`); otherwise the two parts
become the namespace and identifier. -/
def curieAssign (s : List Char) : Except Unit (List Char × List Char) :=
  match pySplitColon s with
  | [ns, id] => Except.ok (ns, id)
  | _ => Except.error ()

/-- models.py `Node.curie` getter over the node's (namespace, identifier)
fields: a falsy part (empty string, like `None`) produces `""` (logged,
non-fatal); otherwise the lower-cased namespace, a colon, and the
identifier (`bioregistry.curie_to_str`). -/
def curieGet (ns id : List Char) : List Char :=
  if ns = [] ∨ id = [] then [] else ns.map Char.toLower ++ ':' :: id

/-- Assigning a CURIE string to a `Node` and reading the property back. -/
def curieRoundTrip (s : List Char) : Except Unit (List Char) :=
  (curieAssign s).map (fun p => curieGet p.1 p.2)

/-! ### ground.py `SciSpacyAnnotator.annotate` -/

/-- An entity span identified by the loaded spaCy model (`doc.ents`):
its text and character offsets. -/
structure NerSpan where
  text : String
  start_char : Nat
  end_char : Nat
deriving Repr, DecidableEq

/-- ground.py `SciSpacyAnnotator.annotate`.  `ents` is the span list the
(external) spaCy model produces for `text`; `groundFn` is the external
`gilda.ground(text, namespaces, context)`.  The `return annotations`
statement sits *inside* the `for entity in doc.ents` loop, so the method
returns during the first iteration; when the loop body never runs (no
spans) the method falls off the end and returns Python `None`, modelled as
`none`. -/
def sciSpacyAnnotate (groundFn : String → List String → String → List ScoredMatch)
    (namespaces : List String) (ents : List NerSpan) (text : String)
    (context : Option String) : Option (List AnnSpan) :=
  let context_text := context.getD text
  match ents with
  | [] => none
  | ent :: _ =>
    let ms := groundFn ent.text namespaces context_text
    some (if ms.isEmpty then []
      else [⟨ent.text, ms, ent.start_char, ent.end_char⟩])

/-! ## Theorems -/

/-! ### C1 -/


/-- C1: for an entity already carrying the configured MESH namespace token
and a non-empty identifier that the offline MESH name table resolves,
`Grounder.ground` yields exactly one entity, with namespace and identifier
unchanged and `grounded_term` set to the offline canonical name, and the
oracle `grounder_func` is never called (`preprocess` being the default
no-op hook). -/

theorem mesh_fast_path_offline_hit (g : Grounder) (e : BioEntity) (ctx : Option String)
    (name : String)
    (hpre : g.preprocess = id) (htok : g.meshToken ≠ "")
    (hns : e.ns = some g.meshToken) (hid : truthy e.ns_id = true)
    (hname : g.getMeshName (e.ns_id.getD "") = some name) :
    (Grounder.ground g e ctx).yielded = [{ e with grounded_term := some name }] ∧
    (Grounder.ground g e ctx).oracleCalls = 0 := by
  have h1 : truthy (some g.meshToken) = true := by simp [truthy, htok]
  simp [Grounder.ground, hpre, hns, h1, hid, hname]

/-- C1 witness: `gPlain` resolves `eMesh` offline to `Calcimycin` with no
oracle call. -/

theorem mesh_fast_path_offline_hit_w :
    (Grounder.ground gPlain eMesh none).yielded =
      [{ eMesh with grounded_term := some "Calcimycin" }] ∧
    (Grounder.ground gPlain eMesh none).oracleCalls = 0 :=
  mesh_fast_path_offline_hit gPlain eMesh none "Calcimycin"
    rfl (by decide) rfl (by decide) (by decide)

/-! ### C3 -/


/-- C3: an entity carrying any non-MESH namespace together with a non-empty
identifier passes through `Grounder.ground` unchanged: exactly one entity is
yielded, identical to the input, and neither the oracle, nor the annotator,
nor the MESH name table is consulted (`preprocess` being the default no-op
hook). -/

theorem non_mesh_passthrough (g : Grounder) (e : BioEntity) (ctx : Option String)
    (hpre : g.preprocess = id)
    (hns : truthy e.ns = true) (hne : e.ns ≠ some g.meshToken)
    (hid : truthy e.ns_id = true) :
    Grounder.ground g e ctx = ⟨[e], e, 0, 0, 0⟩ := by
  obtain ⟨s, hs⟩ : ∃ s, e.ns = some s := by
    cases h : e.ns with
    | none => rw [h] at hns; simp [truthy] at hns
    | some s => exact ⟨s, rfl⟩
  have hsk : (s == g.meshToken) = false := by
    simp only [beq_eq_false_iff_ne]
    intro h
    exact hne (by rw [hs, h])
  have h1 : truthy (some s) = true := by rw [← hs]; exact hns
  simp [Grounder.ground, hpre, hs, hsk, h1, hid]

/-- C3 witness: `gPlain` passes the doid-grounded `eOther` through
untouched. -/

theorem non_mesh_passthrough_w :
    Grounder.ground gPlain eOther none = ⟨[eOther], eOther, 0, 0, 0⟩ :=
  non_mesh_passthrough gPlain eOther none rfl (by decide) (by decide) (by decide)

/-! ### C2 -/


/-- C2: with a non-empty tree-prefix restriction configured, match-yield
(`Grounder._yield_entity`) on a candidate whose grounding map carries a
(non-empty) MESH identifier emits nothing when the identifier's tree
position matches no configured prefix, and emits exactly one MESH-grounded
entity — namespace the MESH token, identifier that MESH id, grounded term
the candidate's display name — when it matches at least one. -/

theorem yield_entity_tree_restriction (g : Grounder) (e : BioEntity) (m : ScoredMatch)
    (mid : String)
    (hres : g.restrictMesh ≠ [])
    (hmid : dictGet m.groundings g.meshToken = some mid) (hne : mid ≠ "") :
    ((∀ p ∈ g.restrictMesh, g.hasTreePfx mid p = false) →
      Grounder.yieldEntity g e m = []) ∧
    ((∃ p ∈ g.restrictMesh, g.hasTreePfx mid p = true) →
      Grounder.yieldEntity g e m =
        [{ e with ns := some g.meshToken, ns_id := some mid,
                  grounded_term := some m.term.entry_name }]) := by
  have htr : truthy (some mid) = true := by simp [truthy, hne]
  have hemp : g.restrictMesh.isEmpty = false := by
    simp [List.isEmpty_iff, hres]
  constructor
  · intro hall
    have hany : g.restrictMesh.any (fun p => g.hasTreePfx mid p) = false := by
      simp only [List.any_eq_false]
      intro p hp
      simp [hall p hp]
    simp [Grounder.yieldEntity, hmid, htr, hemp, hany]
  · intro hex
    have hany : g.restrictMesh.any (fun p => g.hasTreePfx mid p) = true := by
      simp only [List.any_eq_true]
      obtain ⟨p, hp, hpt⟩ := hex
      exact ⟨p, hp, hpt⟩
    simp [Grounder.yieldEntity, Grounder.createGroundedEntity, hmid, htr, hemp, hany]

/-- C2 witness: under `gRestrict`, the out-of-tree candidate yields nothing
and the in-tree candidate yields exactly one MESH-grounded entity. -/

theorem yield_entity_tree_restriction_w :
    Grounder.yieldEntity gRestrict eOther mOutside = [] ∧
    Grounder.yieldEntity gRestrict eOther mInside =
      [{ eOther with ns := some gRestrict.meshToken, ns_id := some "D0777",
                     grounded_term := some mInside.term.entry_name }] :=
  ⟨(yield_entity_tree_restriction gRestrict eOther mOutside "D999"
      (by decide) (by decide) (by decide)).1 (by decide),
   (yield_entity_tree_restriction gRestrict eOther mInside "D0777"
      (by decide) (by decide) (by decide)).2 ⟨"C", by decide, by decide⟩⟩

/-! ### C4 -/


/-- C4 counterexample: `Grounder.ground` does mutate its input in the MESH
fast path.  Draining `gPlain.ground eMesh` leaves the caller's entity with
`grounded_term` set to `Calcimycin`, so the input's fields do not all equal
their values from before the call, and the yielded entity is the input
object itself rather than a copy. -/

theorem ground_mutates_input_cex :
    (Grounder.ground gPlain eMesh none).inputAfter ≠ eMesh ∧
    (Grounder.ground gPlain eMesh none).inputAfter.grounded_term = some "Calcimycin" := by
  decide

/-- C4 amended: `Grounder.ground` (with the default no-op preprocess hook)
never changes the input entity's variant, namespace, identifier, labels,
source, text, description or origin; the only field the call may update in
place is `grounded_term` (set by the MESH fast path when the offline name
table resolves the identifier).  Entities yielded by the general resolution
path are copies produced by `_create_grounded_entity`. -/

theorem ground_frame_grounded_term_only (g : Grounder) (e : BioEntity) (ctx : Option String)
    (hpre : g.preprocess = id) :
    (Grounder.ground g e ctx).inputAfter =
      { e with grounded_term := (Grounder.ground g e ctx).inputAfter.grounded_term } := by
  simp only [Grounder.ground, hpre, id]
  by_cases h1 : (truthy e.ns && (e.ns.getD "" == g.meshToken) && truthy e.ns_id) = true
  · simp only [h1, if_true]
    cases hname : g.getMeshName (e.ns_id.getD "") with
    | some n => simp
    | none =>
      cases g.grounder_func e.text (some [g.meshToken]) none with
      | nil => simp
      | cons m ms => simp
  · simp only [Bool.not_eq_true] at h1
    simp only [h1, Bool.false_eq_true, if_false]
    by_cases h2 : (truthy e.ns && truthy e.ns_id) = true
    · simp [h2]
    · simp only [Bool.not_eq_true] at h2
      simp only [h2, Bool.false_eq_true, if_false]
      cases g.grounder_func e.text g.namespaces ctx with
      | cons m ms => simp
      | nil =>
        by_cases h3 : truthy e.description = true
        · simp [h3]
        · simp only [Bool.not_eq_true] at h3
          simp [h3]

/-- C4 amended witness: draining `gPlain.ground eMesh` changes `eMesh` only
at `grounded_term`. -/

theorem ground_frame_grounded_term_only_w :
    (Grounder.ground gPlain eMesh none).inputAfter =
      { eMesh with grounded_term := (Grounder.ground gPlain eMesh none).inputAfter.grounded_term } :=
  ground_frame_grounded_term_only gPlain eMesh none rfl

/-! ### C5 -/


/-- C5 evaluated at the failing input: when the Intervention variant is
encountered first during aggregation, `process_bioentities` resolves the
Intervention bucket with the *condition* grounder and the Condition bucket
with the *intervention* grounder — the trial ends up with its intervention
grounded to `CONDDB` and its condition grounded to `INTDB` — whereas the
intervention resolver itself would have grounded the intervention to
`INTDB` (second conjunct). -/

theorem processor_bucket_pairing_swapped :
    ((processBioentities cgSwap igSwap
        (getBioentities [tSwap]).1 (getBioentities [tSwap]).2).result.map
      (fun pr => pr.1.map (fun p => p.2.entities.map (fun e => (e.variant, e.ns))))) =
      Except.ok [[(Variant.intervention, some "CONDDB"),
                  (Variant.condition, some "INTDB")]] ∧
    (Grounder.ground igSwap iEnt (some (trialContext tSwap))).yielded.map
        (fun e => e.ns) = [some "INTDB"] := by
  decide

/-! ### C6 -/


/-- C6 evaluated on the code: the warm-up lines of
`Processor.process_bioentities` execute no resolution code at all —
`Grounder.ground` is a generator function and the two warm-up generators
are discarded without being iterated — while the per-entity loop on the
same run does execute external calls (two oracle calls for the `tSwap`
fixture).  The claimed forcing of lazy one-time initialization therefore
never happens. -/

theorem warmup_executes_nothing :
    (∀ cg ig idx buckets,
      (processBioentities cg ig idx buckets).warmupExecuted = 0) ∧
    ((processBioentities cgSwap igSwap
        (getBioentities [tSwap]).1 (getBioentities [tSwap]).2).result.map
      (fun pr => pr.2)) = Except.ok 2 := by
  exact ⟨fun _ _ _ _ => rfl, by decide⟩

/-! ### C7: helper lemmas on the Ground-phase fold -/

/-- Extending a trial's entity bag changes no key of the index: lookups
succeed afterwards exactly where they succeeded before. -/
theorem lookupIdx_extend_isSome (idx : List (String × Trial)) (k k' : String)
    (es : List BioEntity) :
    (lookupIdx (extendTrialEntities idx k es) k').isSome =
      (lookupIdx idx k').isSome := by
  simp only [lookupIdx, extendTrialEntities, List.find?_map, Option.isSome_map']
  have hcomp : ((fun p : String × Trial => p.1 == k') ∘
      (fun p : String × Trial =>
        if p.1 == k then (p.1, { p.2 with entities := p.2.entities ++ es }) else p)) =
      fun p : String × Trial => p.1 == k' := by
    funext p
    by_cases h : p.1 == k <;> simp [Function.comp, h]
  rw [hcomp]

/-- A successful `groundStep` found the entity's origin and left the key set
of the index untouched. -/
theorem groundStep_ok (g : Grounder) (acc acc' : List (String × Trial) × Nat)
    (e : BioEntity) (h : groundStep g acc e = Except.ok acc') :
    (lookupIdx acc.1 e.origin).isSome = true ∧
      ∀ k, (lookupIdx acc'.1 k).isSome = (lookupIdx acc.1 k).isSome := by
  unfold groundStep at h
  cases hl : lookupIdx acc.1 e.origin with
  | none => rw [hl] at h; exact absurd h (by simp)
  | some trial =>
    rw [hl] at h
    refine ⟨by simp, ?_⟩
    intro k
    have hacc : acc'.1 = extendTrialEntities acc.1 e.origin
        (Grounder.ground g e (some (trialContext trial))).yielded := by
      cases h; rfl
    rw [hacc, lookupIdx_extend_isSome]

/-- If folding `groundStep` over a bucket succeeds, every entity's origin
was a key of the index at entry, and the key set is unchanged at exit. -/
theorem bucketFold_ok (g : Grounder) (es : List BioEntity)
    (acc acc' : List (String × Trial) × Nat)
    (h : es.foldlM (fun a e => groundStep g a e) acc = Except.ok acc') :
    (∀ e ∈ es, (lookupIdx acc.1 e.origin).isSome = true) ∧
      ∀ k, (lookupIdx acc'.1 k).isSome = (lookupIdx acc.1 k).isSome := by
  induction es generalizing acc with
  | nil =>
    simp only [List.foldlM_nil] at h
    cases h
    exact ⟨by simp, fun _ => rfl⟩
  | cons e es ih =>
    simp only [List.foldlM_cons] at h
    cases hstep : groundStep g acc e with
    | error msg => rw [hstep] at h; exact Except.noConfusion h
    | ok acc1 =>
      rw [hstep] at h
      replace h : es.foldlM (fun a e => groundStep g a e) acc1 = Except.ok acc' := h
      obtain ⟨hfound, hkeys⟩ := groundStep_ok g acc acc1 e hstep
      obtain ⟨hall, hkeys'⟩ := ih acc1 h
      refine ⟨?_, fun k => (hkeys' k).trans (hkeys k)⟩
      intro e' he'
      rcases List.mem_cons.1 he' with rfl | hmem
      · exact hfound
      · exact (hkeys e'.origin) ▸ hall e' hmem

/-- If the whole bucket/grounder fold succeeds, every entity of every
processed bucket had its origin among the keys of the entry index. -/
theorem pairsFold_ok (pairs : List ((Variant × List BioEntity) × Grounder))
    (acc acc' : List (String × Trial) × Nat)
    (h : pairs.foldlM
      (fun a pr => pr.1.2.foldlM (fun a e => groundStep pr.2 a e) a) acc =
        Except.ok acc') :
    (∀ pr ∈ pairs, ∀ e ∈ pr.1.2, (lookupIdx acc.1 e.origin).isSome = true) ∧
      ∀ k, (lookupIdx acc'.1 k).isSome = (lookupIdx acc.1 k).isSome := by
  induction pairs generalizing acc with
  | nil =>
    simp only [List.foldlM_nil] at h
    cases h
    exact ⟨by simp, fun _ => rfl⟩
  | cons pr prs ih =>
    simp only [List.foldlM_cons] at h
    cases hstep : pr.1.2.foldlM (fun a e => groundStep pr.2 a e) acc with
    | error msg => rw [hstep] at h; exact Except.noConfusion h
    | ok acc1 =>
      rw [hstep] at h
      replace h : prs.foldlM
          (fun a pr => pr.1.2.foldlM (fun a e => groundStep pr.2 a e) a) acc1 =
            Except.ok acc' := h
      obtain ⟨hall1, hkeys1⟩ := bucketFold_ok pr.2 pr.1.2 acc acc1 hstep
      obtain ⟨hall, hkeys'⟩ := ih acc1 h
      refine ⟨?_, fun k => (hkeys' k).trans (hkeys1 k)⟩
      intro pr' hpr' e he'
      rcases List.mem_cons.1 hpr' with rfl | hmem
      · exact hall1 e he'
      · exact (hkeys1 e.origin) ▸ hall pr' hmem e he'

/-- `bucketAdd` never duplicates a bucket key. -/
theorem bucketAdd_keys_nodup (bs : List (Variant × List BioEntity))
    (v : Variant) (e : BioEntity) (h : (bs.map Prod.fst).Nodup) :
    ((bucketAdd bs v e).map Prod.fst).Nodup := by
  unfold bucketAdd
  cases hv : bs.any (fun b => b.1 == v) with
  | true =>
    rw [if_pos rfl, List.map_map]
    have hkeys : bs.map (Prod.fst ∘ fun b => if b.1 == v then (b.1, b.2 ++ [e]) else b)
        = bs.map Prod.fst := by
      apply List.map_congr_left
      intro b _
      by_cases hb : (b.1 == v) = true <;> simp [Function.comp, hb]
    rw [hkeys]
    exact h
  | false =>
    rw [if_neg (by simp)]
    have hnv : v ∉ bs.map Prod.fst := by
      intro hvmem
      obtain ⟨b, hb, rfl⟩ := List.mem_map.1 hvmem
      have hany : bs.any (fun x => x.1 == b.1) = true :=
        List.any_eq_true.2 ⟨b, hb, by exact beq_self_eq_true b.1⟩
      rw [hv] at hany
      cases hany
    simp only [List.map_append, List.map_cons, List.map_nil]
    exact List.Nodup.append h (List.nodup_singleton v)
      (List.disjoint_singleton.2 hnv)

/-- Pooling a list of entities preserves bucket-key distinctness. -/
theorem entFold_keys_nodup (es : List BioEntity)
    (bs : List (Variant × List BioEntity)) (h : (bs.map Prod.fst).Nodup) :
    (((es.foldl (fun bs e => bucketAdd bs e.variant e) bs)).map Prod.fst).Nodup := by
  induction es generalizing bs with
  | nil => exact h
  | cons e es ih => exact ih _ (bucketAdd_keys_nodup bs e.variant e h)

/-- The aggregation of `Processor.get_bioentities` produces buckets with
pairwise-distinct variant keys. -/
theorem getBioentities_keys_nodup (trials : List Trial) :
    (((getBioentities trials).2).map Prod.fst).Nodup := by
  suffices h : ∀ (acc : List (String × Trial) × List (Variant × List BioEntity)),
      (acc.2.map Prod.fst).Nodup →
      (((trials.foldl
        (fun acc trial =>
          (dictSet acc.1 (Trial.curie trial) { trial with entities := [] },
           trial.entities.foldl (fun bs e => bucketAdd bs e.variant e) acc.2))
        acc).2).map Prod.fst).Nodup by
    exact h ([], []) (by simp)
  induction trials with
  | nil => intro acc hacc; exact hacc
  | cons t ts ih =>
    intro acc hacc
    exact ih _ (entFold_keys_nodup t.entities acc.2 hacc)

/-- There are only two entity variants, so aggregation yields at most two
buckets — the zip against the two grounders therefore covers every
bucket. -/
theorem getBioentities_buckets_len (trials : List Trial) :
    ((getBioentities trials).2).length ≤ 2 := by
  have h := (getBioentities_keys_nodup trials).length_le_card
  simpa using h

/-! ### C7 -/

/-- C7: during the Ground phase, an entity pooled by aggregation whose
origin CURIE is not a key of the trial index makes
`process_bioentities` abort with an error naming no successor state (the
Python `KeyError` at `self.curie_to_trial[entity.origin]`): no grounded
output is produced and processing does not continue. -/
theorem missing_origin_fails_loudly (trials : List Trial) (cg ig : Grounder)
    (e : BioEntity)
    (hmem : ∃ b ∈ (getBioentities trials).2, e ∈ b.2)
    (hmiss : lookupIdx (getBioentities trials).1 e.origin = none) :
    ∃ msg, (processBioentities cg ig (getBioentities trials).1
      (getBioentities trials).2).result = Except.error msg := by
  obtain ⟨b, hb, he⟩ := hmem
  cases hres : (processBioentities cg ig (getBioentities trials).1
      (getBioentities trials).2).result with
  | error msg => exact ⟨msg, rfl⟩
  | ok acc' =>
    exfalso
    have hlen : ((getBioentities trials).2).length ≤
        ([cg, ig] : List Grounder).length := by
      simpa using getBioentities_buckets_len trials
    have hbz : b ∈ (((getBioentities trials).2).zip [cg, ig]).map Prod.fst := by
      rw [List.map_fst_zip _ _ hlen]
      exact hb
    obtain ⟨pr, hpr, hfst⟩ := List.mem_map.1 hbz
    have hfold : (((getBioentities trials).2).zip [cg, ig]).foldlM
        (fun a pr => pr.1.2.foldlM (fun a e => groundStep pr.2 a e) a)
        ((getBioentities trials).1, 0) = Except.ok acc' := by
      simpa [processBioentities] using hres
    have hfound := (pairsFold_ok _ _ _ hfold).1 pr hpr e (by rw [hfst]; exact he)
    rw [hmiss] at hfound
    simp at hfound

/-- C7 witness: with the fixture trial `tBad` (CURIE `reg:T1`) whose only
mention has origin `reg:MISSING`, the Ground phase errors out. -/
theorem missing_origin_fails_loudly_w :
    ∃ msg, (processBioentities gPlain gPlain (getBioentities [tBad]).1
      (getBioentities [tBad]).2).result = Except.error msg :=
  missing_origin_fails_loudly [tBad] gPlain gPlain badEnt
    ⟨(Variant.condition, [badEnt]), by decide, by decide⟩ (by decide)

/-! ### C8 -/

/-- C8: the serialized entity-row list is exactly the deduplicated set of
flattened rows, sorted by (entity CURIE, origin trial CURIE): it is sorted
under the key order, contains no duplicate row, has the same members as
the raw flattened rows, and every flattened row — in particular any two
entities flattening identically — appears exactly once. -/
theorem save_bioentities_rows_spec (trials : List Trial) :
    List.Sorted rowKeyLe (saveBioentityRows trials) ∧
    (saveBioentityRows trials).Nodup ∧
    (∀ r, r ∈ saveBioentityRows trials ↔
      r ∈ (trials.flatMap (fun t => t.entities)).map flattenBioentity) ∧
    ∀ r ∈ (trials.flatMap (fun t => t.entities)).map flattenBioentity,
      (saveBioentityRows trials).count r = 1 := by
  have hperm := List.perm_insertionSort rowKeyLe
    (((trials.flatMap (fun t => t.entities)).map flattenBioentity).dedup)
  refine ⟨List.sorted_insertionSort rowKeyLe _,
    hperm.nodup_iff.2 (List.nodup_dedup _), ?_, ?_⟩
  · intro r
    rw [saveBioentityRows, hperm.mem_iff, List.mem_dedup]
  · intro r hr
    rw [saveBioentityRows, hperm.count_eq, List.count_dedup]
    simp [hr]

/-! ### C9: helper lemmas on the Python split -/

/-- A colon-free string splits into itself alone. -/
theorem pySplitColon_no_colon (l : List Char) (h : ':' ∉ l) :
    pySplitColon l = [l] := by
  induction l with
  | nil => rfl
  | cons c cs ih =>
    have hc : c ≠ ':' := fun hcc => h (hcc ▸ List.mem_cons_self c cs)
    have hcs : ':' ∉ cs := fun hm => h (List.mem_cons_of_mem c hm)
    simp [pySplitColon, hc, ih hcs]

/-- Splitting `ns ++ ":" ++ id` with colon-free parts gives exactly the two
parts. -/
theorem pySplitColon_split (ns id : List Char) (hns : ':' ∉ ns) (hid : ':' ∉ id) :
    pySplitColon (ns ++ ':' :: id) = [ns, id] := by
  induction ns with
  | nil => simp [pySplitColon, pySplitColon_no_colon id hid]
  | cons c cs ih =>
    have hc : c ≠ ':' := fun hcc => hns (hcc ▸ List.mem_cons_self c cs)
    have hcs : ':' ∉ cs := fun hm => hns (List.mem_cons_of_mem c hm)
    simp [pySplitColon, hc, ih hcs]

/-- The split produces one more part than there are colons. -/
theorem pySplitColon_length (l : List Char) :
    (pySplitColon l).length = l.count ':' + 1 := by
  induction l with
  | nil => rfl
  | cons c cs ih =>
    by_cases hc : c = ':'
    · subst hc
      simp [pySplitColon, ih, List.count_cons]
    · cases hps : pySplitColon cs with
      | nil => rw [hps] at ih; simp at ih
      | cons r rs =>
        rw [hps] at ih
        simp only [List.length_cons] at ih
        simp [pySplitColon, hc, hps, List.count_cons]
        omega

/-! ### C9 -/

/-- C9 counterexample: `":x"` contains exactly one colon, yet assigning it
to the `curie` property and reading the property back yields `""` (the
namespace part is empty, hence falsy), not the lower-cased reconstruction
`":x"`. -/
theorem curie_roundtrip_cex :
    [':', 'x'].count ':' = 1 ∧
    curieRoundTrip [':', 'x'] = Except.ok [] ∧
    (Except.ok [] : Except Unit (List Char)) ≠ Except.ok [':', 'x'] := by
  decide

/-- C9 amended: for `"ns:id"` built from *non-empty* colon-free parts,
assigning then reading `curie` returns the string with the namespace
lower-cased and the identifier unchanged; and assigning any string whose
colon count differs from one raises (the tuple unpacking of
`curie.split(":")` fails with `ValueError`). -/
theorem curie_roundtrip (ns id : List Char)
    (hns : ns ≠ []) (hid : id ≠ []) (hnc : ':' ∉ ns) (hic : ':' ∉ id) :
    curieRoundTrip (ns ++ ':' :: id) =
      Except.ok (ns.map Char.toLower ++ ':' :: id) ∧
    ∀ s : List Char, s.count ':' ≠ 1 → curieAssign s = Except.error () := by
  constructor
  · unfold curieRoundTrip curieAssign
    rw [pySplitColon_split ns id hnc hic]
    simp [Except.map, curieGet, hns, hid]
  · intro s hs
    unfold curieAssign
    cases hps : pySplitColon s with
    | nil => rfl
    | cons a t =>
      cases t with
      | nil => rfl
      | cons b t2 =>
        cases t2 with
        | nil =>
          exfalso
          have hlen := pySplitColon_length s
          rw [hps] at hlen
          simp only [List.length_cons, List.length_nil] at hlen
          exact hs (by omega)
        | cons c t3 => rfl

/-- C9 amended witness: `"Ab:c"` round-trips to `"ab:c"`, and the
malformed-count clause holds. -/
theorem curie_roundtrip_w :
    curieRoundTrip (['A', 'b'] ++ ':' :: ['c']) =
      Except.ok (['A', 'b'].map Char.toLower ++ ':' :: ['c']) ∧
    ∀ s : List Char, s.count ':' ≠ 1 → curieAssign s = Except.error () :=
  curie_roundtrip ['A', 'b'] ['c'] (by decide) (by decide) (by decide) (by decide)

/-! ### C10 -/

/-- C10: `SciSpacyAnnotator.annotate` returns `None` — not an empty list —
when the spaCy model identifies no entity spans; and with one or more
spans it returns during the first loop iteration, so the result is the
same as if only the first span existed and contains at most one
annotation. -/
theorem scispacy_annotate_first_span_only
    (groundFn : String → List String → String → List ScoredMatch)
    (namespaces : List String) (text : String) (ctx : Option String) :
    sciSpacyAnnotate groundFn namespaces [] text ctx = none ∧
    (∀ ent rest, sciSpacyAnnotate groundFn namespaces (ent :: rest) text ctx =
      sciSpacyAnnotate groundFn namespaces [ent] text ctx) ∧
    ∀ ent rest, ∃ l, sciSpacyAnnotate groundFn namespaces (ent :: rest) text ctx =
      some l ∧ l.length ≤ 1 := by
  refine ⟨rfl, fun ent rest => rfl, fun ent rest => ?_⟩
  refine ⟨if (groundFn ent.text namespaces (ctx.getD text)).isEmpty then []
    else [⟨ent.text, groundFn ent.text namespaces (ctx.getD text),
      ent.start_char, ent.end_char⟩], rfl, ?_⟩
  by_cases hm : (groundFn ent.text namespaces (ctx.getD text)).isEmpty <;> simp [hm]
